import Mathlib

/-!
Verification of `src/orchestration/data_pipeline.py` from the
machi05_astro-wiki-builder repository.

The module under scrutiny has these relevant functions:

* `fetch_and_ingest_data(collectors, processor)` — iterates over the
  collectors mapping, calls `collect_entities_from_source()` on each,
  validates the returned payloads, and ingests them into the processor;
  a failing source is skipped with a warning (`except ... continue`).
* `export_consolidated_data(processor, output_dir, timestamp, sources_list)`
  — builds the consolidated CSV path from the sorted, abbreviated source
  names and the run timestamp.
* `_sort_dict_recursively(data)` — recursively sorts all dictionaries by
  key before `_export_statistics_json` serializes the statistics.
* `_export_statistics_json(stats, output_dir, timestamp)` — writes the
  sorted statistics to `<output_dir>/statistics/statistics_<timestamp>.json`.
* `_log_category_stats(title, data, total, sort_keys)` — display helper
  that computes percentages for the log lines, without touching the data.

We embed these functions shallowly: the side effects (logging, ingestion
calls, file writes) are represented as explicit event traces or returned
values, and Python runtime values are represented by small inductive types.
-/

namespace AstroWiki

/-! ## Embedding of `fetch_and_ingest_data`

A collector's `collect_entities_from_source()` either raises, or returns a
pair of Python values `(exoplanets, stars)`.  For the control flow of
`fetch_and_ingest_data` only the shape of each payload matters: a list
(with its elements), `None`, or a value of some other type.  Entity rows
are opaque to this function, so we represent them as `String`s. -/

/-- Shape of one Python payload as seen by the type validation in
`fetch_and_ingest_data`: a list of (opaque) entity rows, `None`, or a value
of some other, non-list type. -/
inductive PyVal where
  | pylist (xs : List String)
  | pynone
  | otherVal
deriving DecidableEq

/-- Outcome of calling `collector.collect_entities_from_source()`: the call
either raises an exception or returns the pair `(exoplanets, stars)`.
(A return value that is not a 2-tuple makes the unpacking raise, which the
`except` clause catches exactly like a raise inside the collector, so it is
covered by `raises`.) -/
inductive CollectResult where
  | raises
  | returns (exoplanets stars : PyVal)
deriving DecidableEq

/-- Observable actions of `fetch_and_ingest_data`, in program order:
log lines and calls into the `DataProcessor`. -/
inductive Event where
  | infoCollecting (source : String)
  | warn (source : String)
  | ingestExoplanets (source : String) (items : List String)
  | infoNoExoplanets (source : String)
  | ingestStars (source : String) (items : List String)
  | infoNoStars (source : String)
deriving DecidableEq

/-- Loop body of `fetch_and_ingest_data` for one `(source_name, collector)`
entry, as the trace of events it emits.  Mirrors the Python control flow:

```
logger.info(f"Collecte des données depuis {source_name}...")
try:
    exoplanets, stars = collector.collect_entities_from_source()
    if not isinstance(exoplanets, list): raise TypeError(...)
    if stars is not None and not isinstance(stars, list): raise TypeError(...)
except Exception as e:
    logger.warning(...); continue
if exoplanets: processor.ingest_exoplanets_from_source(exoplanets, source_name)
else: logger.info(...)
if stars: processor.ingest_stars_from_source(stars, source_name)
else: logger.info(...)
```

Python truthiness: `if exoplanets:` is true iff the list is non-empty;
`if stars:` is false for `None` and for the empty list. -/
def processSource (source_name : String) (r : CollectResult) : List Event :=
  Event.infoCollecting source_name ::
    match r with
    | .raises => [Event.warn source_name]
    | .returns exoplanets stars =>
      match exoplanets with
      | .pylist xs =>
        match stars with
        | .pynone =>
            (if xs.isEmpty then [Event.infoNoExoplanets source_name]
             else [Event.ingestExoplanets source_name xs]) ++
            [Event.infoNoStars source_name]
        | .pylist ys =>
            (if xs.isEmpty then [Event.infoNoExoplanets source_name]
             else [Event.ingestExoplanets source_name xs]) ++
            (if ys.isEmpty then [Event.infoNoStars source_name]
             else [Event.ingestStars source_name ys])
        | .otherVal => [Event.warn source_name]
      | _ => [Event.warn source_name]

/-- `fetch_and_ingest_data(collectors, processor)`: iterates over the
collectors dict (a Python dict iterates in insertion order, so we model it
as a list of key/collector pairs) and emits the concatenated traces. -/
def fetch_and_ingest_data (collectors : List (String × CollectResult)) : List Event :=
  (collectors.map (fun p => processSource p.1 p.2)).flatten

/-- A source "fails" in the sense of claim C1: the collector raises, or the
exoplanet payload is not a list, or the star payload is neither `None` nor
a list.  These are exactly the situations in which the `try` block raises
and the `except` clause fires. -/
def sourceFails : CollectResult → Bool
  | .raises => true
  | .returns exoplanets stars =>
    match exoplanets with
    | .pylist _ =>
      match stars with
      | .otherVal => true
      | _ => false
    | _ => true

/-! ## Embedding of the export file names

`export_consolidated_data` builds

```
source_abbrev = {"nasa_exoplanet_archive": "nea",
                 "exoplanet_eu": "exoplanet_eu",
                 "open_exoplanet": "open_exoplanet"}
source_prefix = "_".join(source_abbrev.get(source, source)
                         for source in sorted(sources_list))   # if sources_list
               (else "consolidated")
consolidated_path = f"{output_dir}/consolidated/{source_prefix}_{timestamp}.csv"
```

and `_export_statistics_json` builds

```
stats_path = os.path.join(output_dir, "statistics", f"statistics_{timestamp}.json")
```

`sorted` on a list of `str` sorts lexicographically by code point, which is
`List.insertionSort (· ≤ ·)` on Lean `String`s (Python's sort is stable;
so is insertion sort).  `os.path.join` with relative components inserts
`/` separators. -/

/-- `source_abbrev.get(source, source)`: the abbreviation dict lookup with
the source name itself as default. -/
def source_abbrev (source : String) : String :=
  if source = "nasa_exoplanet_archive" then "nea"
  else if source = "exoplanet_eu" then "exoplanet_eu"
  else if source = "open_exoplanet" then "open_exoplanet"
  else source

/-- The `source_prefix` computed by `export_consolidated_data`: for a
truthy (non-empty) `sources_list`, the abbreviations of the sorted source
names joined by `"_"`; for an empty/absent list, `"consolidated"`. -/
def source_prefix_str (sources_list : List String) : String :=
  if sources_list.isEmpty then "consolidated"
  else String.intercalate "_"
    ((sources_list.insertionSort (· ≤ ·)).map source_abbrev)

/-- The consolidated CSV path built by `export_consolidated_data`. -/
def consolidated_path (output_dir timestamp : String)
    (sources_list : List String) : String :=
  output_dir ++ "/consolidated/" ++ source_prefix_str sources_list ++ "_" ++
    timestamp ++ ".csv"

/-- The file name `f"statistics_{timestamp}.json"` used by
`_export_statistics_json`. -/
def statistics_file_name (timestamp : String) : String :=
  "statistics_" ++ timestamp ++ ".json"

/-- The full statistics path `os.path.join(output_dir, "statistics",
f"statistics_{timestamp}.json")`. -/
def statistics_path (output_dir timestamp : String) : String :=
  output_dir ++ "/statistics/" ++ statistics_file_name timestamp

/-- `headMatches pat l` is true iff `pat` is an initial segment of `l`. -/
def headMatches : List Char → List Char → Bool
  | [], _ => true
  | _ :: _, [] => false
  | a :: as, b :: bs => a == b && headMatches as bs

/-- `containsSeq pat l` is true iff `pat` occurs contiguously in `l`. -/
def containsSeq : List Char → List Char → Bool
  | pat, [] => pat.isEmpty
  | pat, b :: bs => headMatches pat (b :: bs) || containsSeq pat bs

/-- A string `s` *embeds* `pat` iff `pat` occurs in `s` as a contiguous
substring. -/
def strContains (s pat : String) : Bool :=
  containsSeq pat.data s.data

/-! ## Embedding of `_sort_dict_recursively` and `_export_statistics_json`

The statistics value handed to `json.dump` is a tree of dicts, lists,
numbers (counts) and strings.  We model such Python data with `PyData`;
dicts are association lists (a Python dict is its insertion-ordered list of
key/value pairs; keys within one dict are unique, so `sorted(data.items())`
compares only the keys). -/

/-- Python data as serialized by `json.dump`: numbers, strings, lists and
(string-keyed) dicts. -/
inductive PyData where
  | num (q : ℚ)
  | str (s : String)
  | list (xs : List PyData)
  | dict (kvs : List (String × PyData))

/-- Key order used by `sorted(data.items())`: tuples `(k, v)` compare by
the key first, and within one dict keys are unique, so only the key
comparison is ever consulted. -/
def keyLe (a b : String × PyData) : Prop := a.1 ≤ b.1

instance : DecidableRel keyLe := fun a b =>
  inferInstanceAs (Decidable (a.1 ≤ b.1))

instance : IsTotal (String × PyData) keyLe := ⟨fun a b => le_total a.1 b.1⟩

instance : IsTrans (String × PyData) keyLe :=
  ⟨fun _ _ _ h1 h2 => le_trans h1 h2⟩

/-- `_sort_dict_recursively(data)`:

```
if isinstance(data, dict):
    return {k: _sort_dict_recursively(v) for k, v in sorted(data.items())}
elif isinstance(data, list):
    return [_sort_dict_recursively(item) for item in data]
else:
    return data
```

(`List.attach` only threads the membership proofs needed for
termination; the unfolding lemmas below restate the function without it.) -/
def _sort_dict_recursively : PyData → PyData
  | .num q => .num q
  | .str s => .str s
  | .list xs => .list (xs.attach.map (fun x => _sort_dict_recursively x.1))
  | .dict kvs => .dict ((kvs.insertionSort keyLe).attach.map
      (fun kv => (kv.1.1, _sort_dict_recursively kv.1.2)))
termination_by d => sizeOf d
decreasing_by
· have h := List.sizeOf_lt_of_mem x.2
  simp only [PyData.list.sizeOf_spec]
  omega
· obtain ⟨⟨k, v⟩, hkv⟩ := kv
  have h1 : (k, v) ∈ kvs := (List.mem_insertionSort _).mp hkv
  have h2 := List.sizeOf_lt_of_mem h1
  simp only [PyData.dict.sizeOf_spec, Prod.mk.sizeOf_spec] at *
  omega

/-- `_export_statistics_json(stats, output_dir, timestamp)`, as the pair
(path written to, JSON value written): it serializes
`_sort_dict_recursively(stats)` (with `sort_keys` left at its default
`False`, so the dict order *is* the serialization order) to
`os.path.join(output_dir, "statistics", f"statistics_{timestamp}.json")`. -/
def _export_statistics_json (stats : PyData) (output_dir timestamp : String) :
    String × PyData :=
  (statistics_path output_dir timestamp, _sort_dict_recursively stats)

/-- `key=lambda x: str(x[0])` order used by `_log_category_stats` when
`sort_keys=True` (the keys are already strings here). -/
def keyRatLe (a b : String × ℚ) : Prop := a.1 ≤ b.1

instance : DecidableRel keyRatLe := fun a b =>
  inferInstanceAs (Decidable (a.1 ≤ b.1))

/-- `_log_category_stats(title, data, total, sort_keys)`: the list of
`(key, count, percentage)` triples that appear in the emitted log lines
(`f"    - {key} : {count} ({percentage:.1f}%)"`).  The percentage is
`count / total * 100` when `total > 0`, else `0`, computed only here for
display; the function returns `None` in Python and never modifies `data`. -/
def _log_category_stats (title : String) (data : List (String × ℚ))
    (total : ℚ) (sort_keys : Bool) : List (String × ℚ × ℚ) :=
  let _ := title
  let items := if sort_keys then data.insertionSort keyRatLe else data
  items.map (fun kv =>
    (kv.1, kv.2, if 0 < total then kv.2 / total * 100 else 0))

/-! Specification-side predicates for claim C3. -/

/-- Every dict anywhere in the value has its entries in (non-strictly)
ascending key order. -/
inductive AllDictsSorted : PyData → Prop where
  | num (q : ℚ) : AllDictsSorted (.num q)
  | str (s : String) : AllDictsSorted (.str s)
  | list {xs : List PyData} :
      (∀ x ∈ xs, AllDictsSorted x) → AllDictsSorted (.list xs)
  | dict {kvs : List (String × PyData)} :
      List.Sorted keyLe kvs → (∀ kv ∈ kvs, AllDictsSorted kv.2) →
      AllDictsSorted (.dict kvs)

mutual

/-- Two values hold exactly the same data up to reordering of dict
entries: atoms are equal, lists are pointwise equivalent, and dicts are
permutations of each other with equal keys and equivalent values — i.e.
they encode exactly the same key-to-value associations. -/
inductive EquivData : PyData → PyData → Prop where
  | num (q : ℚ) : EquivData (.num q) (.num q)
  | str (s : String) : EquivData (.str s) (.str s)
  | list {xs ys : List PyData} :
      EquivList xs ys → EquivData (.list xs) (.list ys)
  | dict {kvs mid kvs' : List (String × PyData)} :
      kvs.Perm mid → EquivEntries mid kvs' →
      EquivData (.dict kvs) (.dict kvs')

/-- Pointwise `EquivData` on lists. -/
inductive EquivList : List PyData → List PyData → Prop where
  | nil : EquivList [] []
  | cons {x y : PyData} {xs ys : List PyData} :
      EquivData x y → EquivList xs ys → EquivList (x :: xs) (y :: ys)

/-- Pointwise equivalence of dict entries: the keys agree and the values
are `EquivData`-equivalent. -/
inductive EquivEntries :
    List (String × PyData) → List (String × PyData) → Prop where
  | nil : EquivEntries [] []
  | cons (k : String) {v v' : PyData}
      {l l' : List (String × PyData)} :
      EquivData v v' → EquivEntries l l' →
      EquivEntries ((k, v) :: l) ((k, v') :: l')

end

/-- The multiset (as a list up to permutation) of numeric leaves of a
value — for statistics data, the raw counts it stores. -/
def numLeaves : PyData → List ℚ
  | .num q => [q]
  | .str _ => []
  | .list xs => xs.attach.flatMap (fun x => numLeaves x.1)
  | .dict kvs => kvs.attach.flatMap (fun kv => numLeaves kv.1.2)
termination_by d => sizeOf d
decreasing_by
· have h := List.sizeOf_lt_of_mem x.2
  simp only [PyData.list.sizeOf_spec]
  omega
· obtain ⟨⟨k, v⟩, hkv⟩ := kv
  have h2 := List.sizeOf_lt_of_mem hkv
  simp only [PyData.dict.sizeOf_spec, Prod.mk.sizeOf_spec] at *
  omega

/-! ## Helper lemmas -/

theorem headMatches_append (pat rest : List Char) :
    headMatches pat (pat ++ rest) = true := by
  induction pat with
  | nil => rfl
  | cons a as ih => simp [headMatches, ih]

theorem containsSeq_self (pat r : List Char) :
    containsSeq pat (pat ++ r) = true := by
  cases pat with
  | nil =>
    cases r with
    | nil => rfl
    | cons b bs => simp [containsSeq, headMatches]
  | cons a as =>
    simp only [containsSeq, Bool.or_eq_true]
    exact Or.inl (by simpa using headMatches_append (a :: as) r)

theorem containsSeq_append (l pat r : List Char) :
    containsSeq pat (l ++ pat ++ r) = true := by
  induction l with
  | nil => simpa using containsSeq_self pat r
  | cons x l ih =>
    simp only [containsSeq, List.cons_append, Bool.or_eq_true]
    exact Or.inr (by simpa using ih)

/-- If the character data of `s` decomposes as `l ++ pat.data ++ r` then
`s` embeds `pat`. -/
theorem strContains_of_data (s pat : String) (l r : List Char)
    (h : s.data = l ++ pat.data ++ r) : strContains s pat = true := by
  unfold strContains
  rw [h]
  exact containsSeq_append l pat.data r

/-- `_sort_dict_recursively` on a list, without the termination
bookkeeping. -/
theorem sortRec_list (xs : List PyData) :
    _sort_dict_recursively (.list xs) = .list (xs.map _sort_dict_recursively) := by
  rw [_sort_dict_recursively]
  exact congrArg PyData.list (List.attach_map_val xs _sort_dict_recursively)

/-- `_sort_dict_recursively` on a dict, without the termination
bookkeeping. -/
theorem sortRec_dict (kvs : List (String × PyData)) :
    _sort_dict_recursively (.dict kvs) =
      .dict ((kvs.insertionSort keyLe).map
        (fun kv => (kv.1, _sort_dict_recursively kv.2))) := by
  rw [_sort_dict_recursively]
  exact congrArg PyData.dict
    (List.attach_map_val (kvs.insertionSort keyLe)
      (fun kv => (kv.1, _sort_dict_recursively kv.2)))

theorem numLeaves_list (xs : List PyData) :
    numLeaves (.list xs) = xs.flatMap numLeaves := by
  rw [numLeaves]
  simp only [List.flatMap_def]
  exact congrArg List.flatten (List.attach_map_val xs numLeaves)

theorem numLeaves_dict (kvs : List (String × PyData)) :
    numLeaves (.dict kvs) = kvs.flatMap (fun kv => numLeaves kv.2) := by
  rw [numLeaves]
  simp only [List.flatMap_def]
  exact congrArg List.flatten
    (List.attach_map_val kvs (fun kv => numLeaves kv.2))

/-- Well-founded induction over `PyData` by `sizeOf`. -/
theorem PyData.sizeInd {P : PyData → Prop}
    (ih : ∀ d, (∀ e, sizeOf e < sizeOf d → P e) → P d) : ∀ d, P d := by
  intro d
  generalize hn : sizeOf d = n
  induction n using Nat.strong_induction_on generalizing d with
  | _ n IH => exact ih d (fun e he => IH (sizeOf e) (hn ▸ he) e rfl)

theorem sizeOf_lt_of_mem_list {x : PyData} {xs : List PyData}
    (h : x ∈ xs) : sizeOf x < sizeOf (PyData.list xs) := by
  have := List.sizeOf_lt_of_mem h
  simp only [PyData.list.sizeOf_spec]
  omega

theorem sizeOf_snd_lt_of_mem_dict {kv : String × PyData}
    {kvs : List (String × PyData)} (h : kv ∈ kvs) :
    sizeOf kv.2 < sizeOf (PyData.dict kvs) := by
  have h2 := List.sizeOf_lt_of_mem h
  obtain ⟨k, v⟩ := kv
  simp only [PyData.dict.sizeOf_spec, Prod.mk.sizeOf_spec] at *
  omega

theorem sortRec_num (q : ℚ) :
    _sort_dict_recursively (.num q) = .num q := by
  rw [_sort_dict_recursively]

theorem sortRec_str (s : String) :
    _sort_dict_recursively (.str s) = .str s := by
  rw [_sort_dict_recursively]

/-- `_sort_dict_recursively` leaves every dict sorted by key, at every
nesting level. -/
theorem allDictsSorted_sortRec :
    ∀ d, AllDictsSorted (_sort_dict_recursively d) := by
  refine PyData.sizeInd ?_
  intro d IH
  cases d with
  | num q => rw [sortRec_num]; exact .num q
  | str s => rw [sortRec_str]; exact .str s
  | list xs =>
    rw [sortRec_list]
    refine .list ?_
    intro x hx
    obtain ⟨y, hy, rfl⟩ := List.mem_map.mp hx
    exact IH y (sizeOf_lt_of_mem_list hy)
  | dict kvs =>
    rw [sortRec_dict]
    refine .dict ?_ ?_
    · exact List.Pairwise.map _ (fun a b h => h)
        (List.sorted_insertionSort keyLe kvs)
    · intro kv hkv
      obtain ⟨⟨k, v⟩, hmem, rfl⟩ := List.mem_map.mp hkv
      exact IH v (sizeOf_snd_lt_of_mem_dict
        ((List.mem_insertionSort _).mp hmem))

theorem equivEntries_map_sortRec (l : List (String × PyData))
    (h : ∀ kv ∈ l, EquivData kv.2 (_sort_dict_recursively kv.2)) :
    EquivEntries l
      (l.map (fun kv => (kv.1, _sort_dict_recursively kv.2))) := by
  induction l with
  | nil => exact .nil
  | cons kv l ih =>
    obtain ⟨k, v⟩ := kv
    exact .cons k (h (k, v) (List.mem_cons_self _ _))
      (ih fun kv hkv => h kv (List.mem_cons_of_mem _ hkv))

theorem equivList_map_sortRec (l : List PyData)
    (h : ∀ x ∈ l, EquivData x (_sort_dict_recursively x)) :
    EquivList l (l.map _sort_dict_recursively) := by
  induction l with
  | nil => exact .nil
  | cons x l ih =>
    exact .cons (h x (List.mem_cons_self _ _))
      (ih fun y hy => h y (List.mem_cons_of_mem _ hy))

/-- `_sort_dict_recursively` preserves the key-to-value associations of
every dict and the elements of every list. -/
theorem equivData_sortRec :
    ∀ d, EquivData d (_sort_dict_recursively d) := by
  refine PyData.sizeInd ?_
  intro d IH
  cases d with
  | num q => rw [sortRec_num]; exact .num q
  | str s => rw [sortRec_str]; exact .str s
  | list xs =>
    rw [sortRec_list]
    exact .list (equivList_map_sortRec xs
      (fun x hx => IH x (sizeOf_lt_of_mem_list hx)))
  | dict kvs =>
    rw [sortRec_dict]
    exact .dict (List.perm_insertionSort keyLe kvs).symm
      (equivEntries_map_sortRec (kvs.insertionSort keyLe)
        (fun kv hkv => IH kv.2 (sizeOf_snd_lt_of_mem_dict
          ((List.mem_insertionSort _).mp hkv))))

/-- `_sort_dict_recursively` neither adds nor removes numeric values: the
numeric leaves of the output are a permutation of those of the input. -/
theorem numLeaves_sortRec_perm :
    ∀ d, (numLeaves (_sort_dict_recursively d)).Perm (numLeaves d) := by
  refine PyData.sizeInd ?_
  intro d IH
  cases d with
  | num q => rw [sortRec_num]
  | str s => rw [sortRec_str]
  | list xs =>
    rw [sortRec_list, numLeaves_list, numLeaves_list]
    have h1 : (xs.map _sort_dict_recursively).flatMap numLeaves =
        xs.flatMap (fun x => numLeaves (_sort_dict_recursively x)) := by
      simp [List.flatMap_map, Function.comp]
    rw [h1]
    exact List.Perm.flatMap_left xs
      (fun x hx => IH x (sizeOf_lt_of_mem_list hx))
  | dict kvs =>
    rw [sortRec_dict, numLeaves_dict, numLeaves_dict]
    have h1 : ((kvs.insertionSort keyLe).map
          (fun kv => (kv.1, _sort_dict_recursively kv.2))).flatMap
            (fun kv => numLeaves kv.2) =
        (kvs.insertionSort keyLe).flatMap
          (fun kv => numLeaves (_sort_dict_recursively kv.2)) := by
      simp [List.flatMap_map, Function.comp]
    rw [h1]
    refine List.Perm.trans ?_
      (List.Perm.flatMap_right (fun kv => numLeaves kv.2)
        (List.perm_insertionSort keyLe kvs))
    exact List.Perm.flatMap_left (kvs.insertionSort keyLe)
      (fun kv hkv => IH kv.2 (sizeOf_snd_lt_of_mem_dict
        ((List.mem_insertionSort _).mp hkv)))

/-! ## C1 -/

/-- C1 — For every source in the collectors mapping, if its collector
raises, or returns a non-list exoplanet payload, or returns a star payload
that is neither `None` nor a list, then `fetch_and_ingest_data` skips that
source entirely: it performs no ingestion call for it and only logs the
collection-start line and a warning, while every other source in the
mapping — before or after the failing one — is collected and ingested
exactly as it would be on its own; a single source's failure never aborts
the run. -/
theorem fetch_and_ingest_skips_failing_source
    (pre post : List (String × CollectResult))
    (s : String) (c : CollectResult)
    (h : sourceFails c = true) :
    fetch_and_ingest_data (pre ++ (s, c) :: post) =
      fetch_and_ingest_data pre ++
        [Event.infoCollecting s, Event.warn s] ++
        fetch_and_ingest_data post := by
  have hps : processSource s c = [Event.infoCollecting s, Event.warn s] := by
    cases c with
    | raises => rfl
    | returns exoplanets stars =>
      cases exoplanets with
      | pylist xs =>
        cases stars with
        | pylist ys => simp [sourceFails] at h
        | pynone => simp [sourceFails] at h
        | otherVal => rfl
      | pynone => rfl
      | otherVal => rfl
  simp [fetch_and_ingest_data, hps]

/-- Witness for C1: a concrete run with a healthy source before and after a
source whose star payload is a bare scalar; the failing source contributes
only its warning and the neighbours are ingested. -/
theorem fetch_and_ingest_skips_failing_source_witness :
    sourceFails (.returns (.pylist ["p1"]) .otherVal) = true ∧
    fetch_and_ingest_data
        [("nasa_exoplanet_archive", .returns (.pylist ["p0"]) .pynone),
         ("exoplanet_eu", .returns (.pylist ["p1"]) .otherVal),
         ("open_exoplanet", .returns (.pylist ["p2"]) (.pylist ["s2"]))] =
      fetch_and_ingest_data
          [("nasa_exoplanet_archive", .returns (.pylist ["p0"]) .pynone)] ++
        [Event.infoCollecting "exoplanet_eu", Event.warn "exoplanet_eu"] ++
        fetch_and_ingest_data
          [("open_exoplanet", .returns (.pylist ["p2"]) (.pylist ["s2"]))] :=
  ⟨by decide,
   fetch_and_ingest_skips_failing_source
     [("nasa_exoplanet_archive", .returns (.pylist ["p0"]) .pynone)]
     [("open_exoplanet", .returns (.pylist ["p2"]) (.pylist ["s2"]))]
     "exoplanet_eu" (.returns (.pylist ["p1"]) .otherVal) (by decide)⟩

/-! ## C2 -/

/-- C2, counterexample — the claim asserts that the statistics file name
embeds both the run timestamp and the sorted source abbreviation; but
`_export_statistics_json` names the file `f"statistics_{timestamp}.json"`,
so for the run with sources `["nasa_exoplanet_archive"]` (abbreviation
`"nea"`) and timestamp `"20240101_120000"` the statistics file name
`"statistics_20240101_120000.json"` does not contain the abbreviation. -/
theorem statistics_name_lacks_source_abbrev :
    strContains (statistics_file_name "20240101_120000")
        (source_prefix_str ["nasa_exoplanet_archive"]) = false := by
  decide

/-- C2, amended — For every run with a non-empty sources list, the
consolidated CSV path is
`<output_dir>/consolidated/<abbrev(s1)>_..._<abbrev(sn)>_<timestamp>.csv`
for the alphabetically sorted source names joined by underscore, and so
embeds both the source abbreviation and the timestamp; the statistics file
is `<output_dir>/statistics/statistics_<timestamp>.json`, whose name embeds
the timestamp (but, unlike the claim's assertion, not the source
abbreviation). -/
theorem export_file_names (output_dir timestamp : String)
    (sources_list : List String) (h : sources_list ≠ []) :
    consolidated_path output_dir timestamp sources_list =
      output_dir ++ "/consolidated/" ++
        String.intercalate "_"
          ((sources_list.insertionSort (· ≤ ·)).map source_abbrev) ++
        "_" ++ timestamp ++ ".csv" ∧
    strContains (consolidated_path output_dir timestamp sources_list)
        (source_prefix_str sources_list) = true ∧
    strContains (consolidated_path output_dir timestamp sources_list)
        timestamp = true ∧
    statistics_path output_dir timestamp =
      output_dir ++ "/statistics/" ++ ("statistics_" ++ timestamp ++ ".json") ∧
    strContains (statistics_file_name timestamp) timestamp = true := by
  have hne : sources_list.isEmpty = false := by
    cases sources_list with
    | nil => exact absurd rfl h
    | cons a l => rfl
  refine ⟨?_, ?_, ?_, rfl, ?_⟩
  · simp [consolidated_path, source_prefix_str, hne]
  · exact strContains_of_data _ _
      (output_dir ++ "/consolidated/").data
      ("_" ++ timestamp ++ ".csv").data
      (by simp [consolidated_path, String.data_append])
  · exact strContains_of_data _ _
      (output_dir ++ "/consolidated/" ++ source_prefix_str sources_list ++ "_").data
      (".csv").data
      (by simp [consolidated_path, String.data_append])
  · exact strContains_of_data _ _
      ("statistics_").data (".json").data
      (by simp [statistics_file_name, String.data_append])

/-- Witness for C2 (amended): the concrete run over the single source
`nasa_exoplanet_archive` with timestamp `20240101_120000` and output
directory `data`. -/
theorem export_file_names_witness :
    (["nasa_exoplanet_archive"] : List String) ≠ [] ∧
    (consolidated_path "data" "20240101_120000" ["nasa_exoplanet_archive"] =
      "data" ++ "/consolidated/" ++
        String.intercalate "_"
          ((["nasa_exoplanet_archive"].insertionSort (· ≤ ·)).map
            source_abbrev) ++
        "_" ++ "20240101_120000" ++ ".csv" ∧
    strContains
        (consolidated_path "data" "20240101_120000" ["nasa_exoplanet_archive"])
        (source_prefix_str ["nasa_exoplanet_archive"]) = true ∧
    strContains
        (consolidated_path "data" "20240101_120000" ["nasa_exoplanet_archive"])
        "20240101_120000" = true ∧
    statistics_path "data" "20240101_120000" =
      "data" ++ "/statistics/" ++
        ("statistics_" ++ "20240101_120000" ++ ".json") ∧
    strContains (statistics_file_name "20240101_120000")
        "20240101_120000" = true) :=
  ⟨by decide,
   export_file_names "data" "20240101_120000" ["nasa_exoplanet_archive"]
     (by decide)⟩

/-! ## C3 -/

/-- C3 — The JSON value written by `_export_statistics_json` has every
nested dictionary's keys in sorted order at every nesting level, contains
exactly the same key-to-value associations as the input statistics (its
numeric leaves are exactly the raw counts of the input, up to dict
reordering), and contains no percentage values: the percentages
`count / total * 100` are computed only at display time by
`_log_category_stats`, which reads each raw count unchanged and never
modifies or persists the data. -/
theorem export_statistics_json_faithful (stats : PyData)
    (output_dir timestamp : String) :
    AllDictsSorted (_export_statistics_json stats output_dir timestamp).2 ∧
    EquivData stats (_export_statistics_json stats output_dir timestamp).2 ∧
    (numLeaves (_export_statistics_json stats output_dir timestamp).2).Perm
      (numLeaves stats) ∧
    ∀ (title : String) (data : List (String × ℚ)) (total : ℚ)
      (sk : Bool),
      ((_log_category_stats title data total sk).map
          (fun r => (r.1, r.2.1))).Perm data ∧
      ∀ r ∈ _log_category_stats title data total sk,
        r.2.2 = if 0 < total then r.2.1 / total * 100 else 0 := by
  refine ⟨allDictsSorted_sortRec stats, equivData_sortRec stats,
    numLeaves_sortRec_perm stats, ?_⟩
  intro title data total sk
  constructor
  · have h1 : ∀ items : List (String × ℚ),
        (items.map (fun kv : String × ℚ =>
            (kv.1, kv.2, if 0 < total then kv.2 / total * 100 else 0))).map
          (fun r => (r.1, r.2.1)) = items := by
      intro items
      rw [List.map_map]
      exact List.map_id items
    unfold _log_category_stats
    cases sk with
    | false => simp [h1 data]
    | true =>
      simpa [h1 (data.insertionSort keyRatLe)] using
        List.perm_insertionSort keyRatLe data
  · intro r hr
    unfold _log_category_stats at hr
    obtain ⟨kv, _, rfl⟩ := List.mem_map.mp hr
    rfl

end AstroWiki
